import Mathlib

open scoped List

/-!
Shallow embedding of the brute-force association-rule miner in
src/Mohammed_Sameer_Khan_Midterm_Project.py (function
`brute_force_association`, lines 14-58, and its helper
`generate_itemsets`, lines 6-11).

Modelling conventions:
* A transaction (one row of the dataframe after the `str.split(", ")`
  of line 15) is a `List String`; the input of the engine is the list of
  transactions.  `num_transactions` is `len(transactions)` (line 16).
* pandas/numpy floating-point arithmetic is modelled by exact rational
  arithmetic on `ℚ`; all divisions occurring in the claims are exact.
* The `Itemsets` column holds Python strings for single items and Python
  tuples of strings for generated itemsets; `PyVal` reproduces this mixed
  typing.  Python's `set(v)` of such a value is the set of characters for
  a string and the set of components for a tuple — `pyElems` reproduces
  this, with characters rendered as one-character strings (in Python a
  character of a string is itself a string, so `'A' == "A"`).
* `value_counts()` (line 19) lists each distinct token with its number of
  occurrences in the flattened item list, ordered by descending count.
  pandas leaves the relative order of tied counts unspecified; the model
  uses a stable insertion sort over the first-occurrence order, which is
  one admissible deterministic choice.  None of the properties proved
  below depends on the tie order.
* The Python dicts `itemset_occurrences` (line 31), `item_support_map`
  (line 43) and `association_dict` (line 44) are modelled as the
  association lists produced in insertion order; their keys are pairwise
  distinct (single items are distinct strings, generated itemsets are
  distinct tuples, and a string never equals a tuple), so the dicts
  coincide with these lists.
-/

/-- A Python value appearing in the `Itemsets` column: single items are
strings (from `value_counts`), generated itemsets are tuples of strings
(from `tuple(i_set)`, line 34). -/
inductive PyVal where
  | str : String → PyVal
  | tup : List String → PyVal
deriving DecidableEq

/-- Python `set(v)` for an `Itemsets` key: the characters of a string
(each a one-character string) or the components of a tuple.  Possible
duplicates in the list are irrelevant, since the model only ever tests
membership. -/
def pyElems : PyVal → List String
  | .str s => s.data.map (fun c => String.mk [c])
  | .tup l => l

/-- Line 49: `set(consequent).issubset(set(antecedent))`. -/
def pySubset (c a : PyVal) : Bool :=
  (pyElems c).all (fun x => decide (x ∈ pyElems a))

/-- The itemset denoted by a table key, as a set of item tokens: a string
names the one-element itemset of that token, a tuple the set of its
components.  This is the reading of the spec, used to state the claims;
the code itself works with `pyElems` instead. -/
def tokenSet : PyVal → Finset String
  | .str s => {s}
  | .tup l => l.toFinset

/-- One row of a frequent-itemset table: columns `Itemsets`, `Frequency`,
`Support` (lines 23-24 and 36-37). -/
structure FreqRecord where
  itemsets : PyVal
  frequency : Nat
  support : ℚ
deriving DecidableEq

/-- One row of the rule table: the pair in the `Rules` column, the
`Confidence` column and the `Support` column (lines 54-55). -/
structure RuleRecord where
  antecedent : PyVal
  consequent : PyVal
  confidence : ℚ
  support : ℚ
deriving DecidableEq

/-- One pass of the loop body of `generate_itemsets` (lines 8-10):
`subsets.extend([subset + [item] for subset in subsets])`. -/
def addItem (subsets : List (List α)) (item : α) : List (List α) :=
  subsets ++ subsets.map (fun subset => subset ++ [item])

/-- Lines 6-11: starting from `[[]]`, process every item, then return
`subsets[1:]` (dropping the empty subset left at position 0). -/
def generate_itemsets (items : List α) : List (List α) :=
  (items.foldl addItem [[]]).drop 1

/-- The distinct tokens of a list in order of first occurrence (the index
of `value_counts`, before sorting by count). -/
def distinctTokens (l : List String) : List String := l.reverse.dedup.reverse

/-- Line 19: `pd.Series(item_list).value_counts()` — each distinct token
with its occurrence count in the flattened item list, sorted by
descending count (stably, from first-occurrence order; see header note on
tie order). -/
def value_counts (l : List String) : List (String × Nat) :=
  List.insertionSort (fun a b => b.2 ≤ a.2)
    ((distinctTokens l).map (fun x => (x, l.count x)))

/-- Line 16: `num_transactions = len(transactions)`. -/
def num_transactions (transactions : List (List String)) : Nat := transactions.length

/-- Lines 18-19: flatten all transactions and count each distinct token. -/
def item_counts (transactions : List (List String)) : List (String × Nat) :=
  value_counts transactions.flatten

/-- Line 22: the rows of `item_counts` passing
`item_counts >= (min_support / 100) * num_transactions`. -/
def freq_pairs (transactions : List (List String)) (min_support : ℚ) : List (String × Nat) :=
  (item_counts transactions).filter
    (fun p => decide ((min_support / 100) * (num_transactions transactions : ℚ) ≤ (p.2 : ℚ)))

/-- Lines 22-24: the size-1 table `freq_items`, with
`Support = (Frequency / num_transactions) * 100`. -/
def freq_items (transactions : List (List String)) (min_support : ℚ) : List FreqRecord :=
  (freq_pairs transactions min_support).map
    (fun p => ⟨.str p.1, p.2, ((p.2 : ℚ) / (num_transactions transactions : ℚ)) * 100⟩)

/-- Line 33: `sum(1 for transaction in transactions if
set(i_set).issubset(set(transaction)))`. -/
def itemset_count (transactions : List (List String)) (i_set : List String) : Nat :=
  transactions.countP (fun transaction => i_set.all (fun x => decide (x ∈ transaction)))

/-- Lines 27-28: all generated itemsets over the frequent single items
(`freq_items["Itemsets"]`), kept only when `len(iset) > 1`. -/
def valid_itemsets (transactions : List (List String)) (min_support : ℚ) : List (List String) :=
  (generate_itemsets ((freq_pairs transactions min_support).map Prod.fst)).filter
    (fun i_set => decide (1 < i_set.length))

/-- Lines 31-37: the size-at-least-2 table `itemset_df`, one row per valid
itemset in enumeration order, with its containment count and support. -/
def itemset_df (transactions : List (List String)) (min_support : ℚ) : List FreqRecord :=
  (valid_itemsets transactions min_support).map
    (fun i_set => ⟨.tup i_set, itemset_count transactions i_set,
      ((itemset_count transactions i_set : ℚ) / (num_transactions transactions : ℚ)) * 100⟩)

/-- Line 40: `pd.concat([freq_items, itemset_df[itemset_df["Support"] >=
min_support]])`. -/
def all_frequent_items (transactions : List (List String)) (min_support : ℚ) : List FreqRecord :=
  freq_items transactions min_support ++
    (itemset_df transactions min_support).filter (fun r => decide (min_support ≤ r.support))

/-- Line 43: `dict(zip(all_frequent_items["Itemsets"],
all_frequent_items["Support"]))`, as an association list (keys are
pairwise distinct, see header). -/
def item_support_map (transactions : List (List String)) (min_support : ℚ) : List (PyVal × ℚ) :=
  (all_frequent_items transactions min_support).map (fun r => (r.itemsets, r.support))

/-- Lines 47-55: the nested loop over ordered pairs of keys of
`item_support_map`, retaining a pair when
`set(consequent).issubset(set(antecedent)) and antecedent != consequent`,
with `Confidence = (support[antecedent] / support[consequent]) * 100` and
`Support = support[antecedent]`. -/
def rule_rows (transactions : List (List String)) (min_support : ℚ) : List RuleRecord :=
  (item_support_map transactions min_support).flatMap (fun a =>
    (item_support_map transactions min_support).filterMap (fun c =>
      if pySubset c.1 a.1 = true ∧ a.1 ≠ c.1 then
        some ⟨a.1, c.1, (a.2 / c.2) * 100, a.2⟩
      else none))

/-- Line 56: `rule_df[rule_df["Confidence"] >= min_confidence]`. -/
def rule_df (transactions : List (List String)) (min_support min_confidence : ℚ) :
    List RuleRecord :=
  (rule_rows transactions min_support).filter
    (fun r => decide (min_confidence ≤ r.confidence))

/-- Lines 14-58: `brute_force_association` returns `(rule_df,
all_frequent_items)`. -/
def brute_force_association (transactions : List (List String))
    (min_support min_confidence : ℚ) : List RuleRecord × List FreqRecord :=
  (rule_df transactions min_support min_confidence,
   all_frequent_items transactions min_support)

/-! ### Theory of `generate_itemsets` -/

theorem foldl_addItem_eq_sublists (l : List α) : l.foldl addItem [[]] = l.sublists := by
  induction l using List.reverseRecOn with
  | nil => simp [List.sublists_nil]
  | append_singleton l x ih =>
      rw [List.foldl_append, ih, List.sublists_concat]
      rfl

theorem generate_itemsets_eq_drop_sublists (l : List α) :
    generate_itemsets l = l.sublists.drop 1 := by
  rw [generate_itemsets, foldl_addItem_eq_sublists]

theorem foldl_addItem_shape (items : List α) :
    ∀ r : List (List α), (∀ s ∈ r, s ≠ []) →
      ∃ t, List.foldl addItem ([] :: r) items = [] :: t ∧ ∀ s ∈ t, s ≠ [] := by
  induction items with
  | nil => exact fun r hr => ⟨r, rfl, hr⟩
  | cons x items ih =>
      intro r hr
      have hstep : addItem ([] :: r) x = [] :: (r ++ [x] :: r.map (fun s => s ++ [x])) := by
        simp [addItem]
      have hr2 : ∀ s ∈ r ++ [x] :: r.map (fun s => s ++ [x]), s ≠ [] := by
        intro s hs
        rcases List.mem_append.mp hs with h | h
        · exact hr s h
        · rcases List.mem_cons.mp h with h | h
          · simp [h]
          · rcases List.mem_map.mp h with ⟨u, _, rfl⟩
            simp
      have := ih (r ++ [x] :: r.map (fun s => s ++ [x])) hr2
      simpa [List.foldl_cons, hstep] using this

theorem sublists_eq_nil_cons (l : List α) :
    l.sublists = [] :: generate_itemsets l := by
  obtain ⟨t, ht, -⟩ := foldl_addItem_shape l ([] : List (List α)) (by simp)
  have hfold : l.foldl addItem [[]] = [] :: t := ht
  rw [generate_itemsets_eq_drop_sublists, ← foldl_addItem_eq_sublists, hfold]
  rfl

theorem ne_nil_of_mem_generate_itemsets {l : List α} {s : List α}
    (hs : s ∈ generate_itemsets l) : s ≠ [] := by
  obtain ⟨t, ht, hne⟩ := foldl_addItem_shape l ([] : List (List α)) (by simp)
  have : generate_itemsets l = t := by
    rw [generate_itemsets, ht]
    rfl
  exact hne s (this ▸ hs)

theorem mem_generate_itemsets {l s : List α} :
    s ∈ generate_itemsets l ↔ s <+ l ∧ s ≠ [] := by
  constructor
  · intro hs
    refine ⟨?_, ne_nil_of_mem_generate_itemsets hs⟩
    have : s ∈ l.sublists := by
      rw [sublists_eq_nil_cons]
      exact List.mem_cons_of_mem _ hs
    exact List.mem_sublists.mp this
  · rintro ⟨hsub, hne⟩
    have : s ∈ l.sublists := List.mem_sublists.mpr hsub
    rw [sublists_eq_nil_cons] at this
    rcases List.mem_cons.mp this with h | h
    · exact absurd h hne
    · exact h

theorem length_generate_itemsets (l : List α) :
    (generate_itemsets l).length = 2 ^ l.length - 1 := by
  rw [generate_itemsets_eq_drop_sublists, List.length_drop, List.length_sublists]

theorem nodup_generate_itemsets {l : List α} (h : l.Nodup) :
    (generate_itemsets l).Nodup := by
  have := List.nodup_sublists.mpr h
  rw [sublists_eq_nil_cons] at this
  exact (List.nodup_cons.mp this).2

/-- Two sublists of a duplicate-free list that contain the same elements are
equal: a sublist of a duplicate-free list is determined by its set of
elements. -/
theorem sublist_eq_of_toFinset_eq [DecidableEq α] {l s1 s2 : List α} (hl : l.Nodup)
    (h1 : s1 <+ l) (h2 : s2 <+ l) (he : s1.toFinset = s2.toFinset) : s1 = s2 := by
  induction l generalizing s1 s2 with
  | nil => rw [List.sublist_nil.mp h1, List.sublist_nil.mp h2]
  | cons x l ih =>
      rw [List.nodup_cons] at hl
      cases h1 with
      | cons _ h1 =>
          cases h2 with
          | cons _ h2 => exact ih hl.2 h1 h2 he
          | cons₂ _ h2 =>
              exfalso
              have hx : x ∈ s1.toFinset := by
                rw [he]
                simp
              exact hl.1 (h1.subset (List.mem_toFinset.mp hx))
      | cons₂ _ h1 =>
          cases h2 with
          | cons _ h2 =>
              exfalso
              have hx : x ∈ s2.toFinset := by
                rw [← he]
                simp
              exact hl.1 (h2.subset (List.mem_toFinset.mp hx))
          | cons₂ _ h2 =>
              rename_i t1 t2
              have hx1 : x ∉ t1 := fun hm => hl.1 (h1.subset hm)
              have hx2 : x ∉ t2 := fun hm => hl.1 (h2.subset hm)
              have ht : t1.toFinset = t2.toFinset := by
                ext a
                by_cases hax : a = x
                · subst hax
                  simp [hx1, hx2]
                · have := Finset.ext_iff.mp he a
                  simpa [List.mem_toFinset, hax] using this
              rw [ih hl.2 h1 h2 ht]

/-! ### Theory of `value_counts` and the frequent single items -/

theorem mem_distinctTokens {l : List String} {x : String} :
    x ∈ distinctTokens l ↔ x ∈ l := by
  simp [distinctTokens]

theorem nodup_distinctTokens (l : List String) : (distinctTokens l).Nodup := by
  simpa [distinctTokens] using (l.reverse.nodup_dedup)

theorem value_counts_perm (l : List String) :
    value_counts l ~ (distinctTokens l).map (fun x => (x, l.count x)) :=
  List.perm_insertionSort _ _

theorem mem_value_counts {l : List String} {p : String × Nat} :
    p ∈ value_counts l ↔ p.1 ∈ l ∧ p.2 = l.count p.1 := by
  rw [(value_counts_perm l).mem_iff]
  rcases p with ⟨x, n⟩
  simp only [List.mem_map, Prod.mk.injEq]
  constructor
  · rintro ⟨y, hy, rfl, rfl⟩
    exact ⟨mem_distinctTokens.mp hy, rfl⟩
  · rintro ⟨hx, rfl⟩
    exact ⟨x, mem_distinctTokens.mpr hx, rfl, rfl⟩

theorem nodup_map_fst_value_counts (l : List String) :
    ((value_counts l).map Prod.fst).Nodup := by
  have hperm : (value_counts l).map Prod.fst ~
      ((distinctTokens l).map (fun x => (x, l.count x))).map Prod.fst :=
    (value_counts_perm l).map Prod.fst
  rw [hperm.nodup_iff, List.map_map]
  have hid : (Prod.fst ∘ fun x : String => (x, l.count x)) = id := by
    funext x
    rfl
  rw [hid, List.map_id]
  exact nodup_distinctTokens l

/-! ### Structure of the frequent-itemset table and of the rule table -/

theorem nodup_freq_tokens (t : List (List String)) (s : ℚ) :
    ((freq_pairs t s).map Prod.fst).Nodup := by
  have hsub : (freq_pairs t s).map Prod.fst <+ (item_counts t).map Prod.fst :=
    (List.filter_sublist _).map Prod.fst
  exact (nodup_map_fst_value_counts t.flatten).sublist hsub

theorem mem_valid_itemsets {t : List (List String)} {s : ℚ} {i : List String} :
    i ∈ valid_itemsets t s ↔
      i <+ (freq_pairs t s).map Prod.fst ∧ i ≠ [] ∧ 1 < i.length := by
  simp only [valid_itemsets, List.mem_filter, mem_generate_itemsets,
    decide_eq_true_eq, and_assoc]

theorem mem_all_frequent_items {t : List (List String)} {s : ℚ} {r : FreqRecord} :
    r ∈ all_frequent_items t s ↔
      (∃ p ∈ freq_pairs t s,
        r = ⟨.str p.1, p.2, ((p.2 : ℚ) / (num_transactions t : ℚ)) * 100⟩) ∨
      (∃ i ∈ valid_itemsets t s,
        s ≤ ((itemset_count t i : ℚ) / (num_transactions t : ℚ)) * 100 ∧
        r = ⟨.tup i, itemset_count t i,
          ((itemset_count t i : ℚ) / (num_transactions t : ℚ)) * 100⟩) := by
  constructor
  · intro hr
    rcases List.mem_append.mp hr with h | h
    · rcases List.mem_map.mp h with ⟨p, hp, rfl⟩
      exact Or.inl ⟨p, hp, rfl⟩
    · rcases List.mem_filter.mp h with ⟨h1, h2⟩
      rcases List.mem_map.mp h1 with ⟨i, hi, rfl⟩
      refine Or.inr ⟨i, hi, ?_, rfl⟩
      simpa using h2
  · intro hr
    rcases hr with ⟨p, hp, rfl⟩ | ⟨i, hi, hsup, rfl⟩
    · exact List.mem_append.mpr (Or.inl (List.mem_map.mpr ⟨p, hp, rfl⟩))
    · refine List.mem_append.mpr
        (Or.inr (List.mem_filter.mpr ⟨List.mem_map.mpr ⟨i, hi, rfl⟩, ?_⟩))
      simpa using hsup

theorem str_mem_all_frequent_items {t : List (List String)} {s : ℚ} {r : FreqRecord}
    (hr : r ∈ all_frequent_items t s) {x : String} (hk : r.itemsets = .str x) :
    (x, r.frequency) ∈ freq_pairs t s ∧
      r.support = ((r.frequency : ℚ) / (num_transactions t : ℚ)) * 100 := by
  rcases mem_all_frequent_items.mp hr with ⟨p, hp, rfl⟩ | ⟨i, _hi, _hsup, rfl⟩
  · simp only at hk
    injection hk with h
    subst h
    exact ⟨hp, rfl⟩
  · simp only at hk
    exact PyVal.noConfusion hk

theorem tup_mem_all_frequent_items {t : List (List String)} {s : ℚ} {r : FreqRecord}
    (hr : r ∈ all_frequent_items t s) {i : List String} (hk : r.itemsets = .tup i) :
    i ∈ valid_itemsets t s ∧ r.frequency = itemset_count t i ∧
      r.support = ((itemset_count t i : ℚ) / (num_transactions t : ℚ)) * 100 ∧
      s ≤ r.support := by
  rcases mem_all_frequent_items.mp hr with ⟨p, hp, rfl⟩ | ⟨i2, hi, hsup, rfl⟩
  · simp only at hk
    exact PyVal.noConfusion hk
  · simp only at hk
    injection hk with h
    subst h
    exact ⟨hi, rfl, rfl, hsup⟩

theorem mem_item_support_map {t : List (List String)} {s : ℚ} {q : PyVal × ℚ} :
    q ∈ item_support_map t s ↔
      ∃ rec ∈ all_frequent_items t s, q = (rec.itemsets, rec.support) := by
  constructor
  · intro h
    rcases List.mem_map.mp h with ⟨rec, hrec, rfl⟩
    exact ⟨rec, hrec, rfl⟩
  · rintro ⟨rec, hrec, rfl⟩
    exact List.mem_map.mpr ⟨rec, hrec, rfl⟩

theorem mem_rule_rows {t : List (List String)} {s : ℚ} {r : RuleRecord} :
    r ∈ rule_rows t s ↔
      ∃ a ∈ item_support_map t s, ∃ c ∈ item_support_map t s,
        pySubset c.1 a.1 = true ∧ a.1 ≠ c.1 ∧
        r = ⟨a.1, c.1, (a.2 / c.2) * 100, a.2⟩ := by
  constructor
  · intro hr
    rcases List.mem_flatMap.mp hr with ⟨a, ha, hr⟩
    rcases List.mem_filterMap.mp hr with ⟨c, hc, hopt⟩
    by_cases hcond : pySubset c.1 a.1 = true ∧ a.1 ≠ c.1
    · rw [if_pos hcond] at hopt
      exact ⟨a, ha, c, hc, hcond.1, hcond.2, (Option.some.inj hopt).symm⟩
    · rw [if_neg hcond] at hopt
      cases hopt
  · rintro ⟨a, ha, c, hc, h1, h2, rfl⟩
    exact List.mem_flatMap.mpr
      ⟨a, ha, List.mem_filterMap.mpr ⟨c, hc, by rw [if_pos ⟨h1, h2⟩]⟩⟩

theorem mem_rule_df {t : List (List String)} {s conf : ℚ} {r : RuleRecord} :
    r ∈ rule_df t s conf ↔ r ∈ rule_rows t s ∧ conf ≤ r.confidence := by
  simp [rule_df, List.mem_filter]

/-! ### Claim theorems -/

/-- C1: every pair retained in the rule table returned by
`brute_force_association` has confidence 100 × support(antecedent) /
support(consequent), both supports being the percentages recorded in the
combined frequent-itemset table, and the rule row's support column equals
the antecedent's recorded support. -/
theorem C1_rule_confidence_and_support (t : List (List String)) (s c : ℚ)
    (r : RuleRecord) (hr : r ∈ (brute_force_association t s c).1) :
    ∃ ra ∈ (brute_force_association t s c).2,
      ∃ rc ∈ (brute_force_association t s c).2,
        ra.itemsets = r.antecedent ∧ rc.itemsets = r.consequent ∧
        r.confidence = 100 * ra.support / rc.support ∧ r.support = ra.support := by
  have h1 := (mem_rule_df.mp hr).1
  rcases mem_rule_rows.mp h1 with ⟨a, ha, cc, hc, _hsub, _hne, rfl⟩
  rcases mem_item_support_map.mp ha with ⟨ra, hra, rfl⟩
  rcases mem_item_support_map.mp hc with ⟨rc, hrc, rfl⟩
  refine ⟨ra, hra, rc, hrc, rfl, rfl, ?_, rfl⟩
  show (ra.support / rc.support) * 100 = 100 * ra.support / rc.support
  ring

/-- Witness for C1 at the concrete spec-example input, with the rule
({A,B} → {A}). -/
theorem C1_witness :
    ∃ ra ∈ (brute_force_association [["A", "B"], ["A", "B", "C"], ["A"], ["B", "C"]] 50 50).2,
      ∃ rc ∈ (brute_force_association [["A", "B"], ["A", "B", "C"], ["A"], ["B", "C"]] 50 50).2,
        ra.itemsets = PyVal.tup ["A", "B"] ∧ rc.itemsets = PyVal.str "A" ∧
        (200 / 3 : ℚ) = 100 * ra.support / rc.support ∧ (50 : ℚ) = ra.support :=
  C1_rule_confidence_and_support [["A", "B"], ["A", "B", "C"], ["A"], ["B", "C"]] 50 50
    ⟨.tup ["A", "B"], .str "A", 200 / 3, 50⟩ (by decide!)

/-- C3: with at least one transaction, every record in the combined
frequent-itemset table (size-1 and size-at-least-2 records alike) has
support = 100 × count / N, and that support is at least the configured
minimum support. -/
theorem C3_support_formula_and_threshold (t : List (List String)) (s c : ℚ)
    (hN : 1 ≤ t.length) (r : FreqRecord)
    (hr : r ∈ (brute_force_association t s c).2) :
    r.support = 100 * (r.frequency : ℚ) / (t.length : ℚ) ∧ s ≤ r.support := by
  have hN0 : (0 : ℚ) < (t.length : ℚ) := by exact_mod_cast hN
  rcases mem_all_frequent_items.mp hr with ⟨p, hp, rfl⟩ | ⟨i, _hi, hsup, rfl⟩
  · have hcond := (List.mem_filter.mp hp).2
    simp only [decide_eq_true_eq, num_transactions] at hcond
    constructor
    · show ((p.2 : ℚ) / (num_transactions t : ℚ)) * 100 = _
      simp only [num_transactions]
      ring
    · show s ≤ ((p.2 : ℚ) / (num_transactions t : ℚ)) * 100
      simp only [num_transactions]
      rw [div_mul_eq_mul_div, le_div_iff₀ hN0]
      have h2 := mul_le_mul_of_nonneg_right hcond (show (0 : ℚ) ≤ 100 by norm_num)
      have h3 : s / 100 * (t.length : ℚ) * 100 = s * (t.length : ℚ) := by ring
      linarith
  · constructor
    · show ((itemset_count t i : ℚ) / (num_transactions t : ℚ)) * 100 = _
      simp only [num_transactions]
      ring
    · exact hsup

/-- Witness for C3 at the concrete spec-example input, with the record for
item A (count 3 of 4 transactions, support 75). -/
theorem C3_witness :
    (75 : ℚ) = 100 * ((3 : Nat) : ℚ) / ((4 : Nat) : ℚ) ∧ (50 : ℚ) ≤ (75 : ℚ) := by
  have h := C3_support_formula_and_threshold
    [["A", "B"], ["A", "B", "C"], ["A"], ["B", "C"]] 50 50 (by norm_num)
    ⟨.str "A", 3, 75⟩ (by decide!)
  simpa using h

/-- C7 counterexample: with min_support = -5, outside [0,100], the function
does not signal any error and does not return empty output; it computes the
frequent-itemset table as usual (here containing item A with support 100),
so the claim that computation never begins fails. -/
theorem C7_counterexample :
    (brute_force_association [["A"]] (-5) 0).2 = [⟨.str "A", 1, 100⟩] := by
  decide!

/-- C7 amended: `brute_force_association` performs no validation of its
thresholds; with any negative min_support (an out-of-range value) every
distinct item of the input survives the support filter and is returned in
the frequent-itemset table, computed as usual. -/
theorem C7_amended_no_validation (t : List (List String)) (s c : ℚ) (hs : s < 0)
    (p : String × Nat) (hp : p ∈ value_counts t.flatten) :
    ∃ r ∈ (brute_force_association t s c).2,
      r.itemsets = PyVal.str p.1 ∧ r.frequency = p.2 := by
  have h0 : s / 100 ≤ 0 := div_nonpos_iff.mpr (Or.inr ⟨hs.le, by norm_num⟩)
  have h1 : (s / 100) * (num_transactions t : ℚ) ≤ 0 :=
    mul_nonpos_of_nonpos_of_nonneg h0 (Nat.cast_nonneg _)
  have hcond : (s / 100) * (num_transactions t : ℚ) ≤ (p.2 : ℚ) :=
    le_trans h1 (Nat.cast_nonneg _)
  have hmem : p ∈ freq_pairs t s :=
    List.mem_filter.mpr ⟨hp, decide_eq_true hcond⟩
  exact ⟨⟨.str p.1, p.2, ((p.2 : ℚ) / (num_transactions t : ℚ)) * 100⟩,
    mem_all_frequent_items.mpr (Or.inl ⟨p, hmem, rfl⟩), rfl, rfl⟩

/-- Witness for C7's amended statement at min_support = -5 on input [[A]]. -/
theorem C7_amended_witness :
    ∃ r ∈ (brute_force_association [["A"]] (-5) 0).2,
      r.itemsets = PyVal.str "A" ∧ r.frequency = 1 :=
  C7_amended_no_validation [["A"]] (-5) 0 (by norm_num) ("A", 1) (by decide)

/-- C8: on the empty transaction sequence (N = 0) the function returns two
empty tables, uniformly for every pair of thresholds.  In the model every
division is total, and at N = 0 both tables are empty before any quotient
is used, matching the pandas behaviour of element-wise division on an empty
column (no exception is raised). -/
theorem C8_empty_input_empty_tables (s c : ℚ) :
    brute_force_association [] s c = ([], []) := rfl

/-- C2 evaluated at the failing input: on [[AB],[AB],[A],[A]] with both
thresholds 50, the rule table contains a rule whose consequent itemset {A}
is not a subset, as a set of item tokens, of its antecedent itemset {AB}.
Line 49 applies Python set() to the string-typed table keys, so for single
items it compares character sets instead of itemsets. -/
theorem C2_code_bug_char_subset :
    ∃ r ∈ (brute_force_association [["AB"], ["AB"], ["A"], ["A"]] 50 50).1,
      ¬ tokenSet r.consequent ⊆ tokenSet r.antecedent := by
  decide!

/-- C10 counterexample: on [[AB],[AB],[AB],[A]] with min_support 25 and
min_confidence 50, the rule (AB → A) — retained through the character-set
subset test between the two single-item strings — has confidence
(75 / 25) × 100 = 300 > 100. -/
theorem C10_counterexample :
    ∃ r ∈ (brute_force_association [["AB"], ["AB"], ["AB"], ["A"]] 25 50).1,
      100 < r.confidence := by
  decide!

/-- C10 amended: rule confidence is not bounded by 100 in general, but every
retained rule whose antecedent and consequent are both tuple itemsets (the
generated size-at-least-2 itemsets) has confidence at most 100, provided
the minimum support threshold is positive. -/
theorem C10_amended_tuple_rules_bounded (t : List (List String)) (s c : ℚ)
    (hs : 0 < s) (r : RuleRecord) (hr : r ∈ (brute_force_association t s c).1)
    (la lc : List String) (ha : r.antecedent = .tup la) (hc : r.consequent = .tup lc) :
    r.confidence ≤ 100 := by
  have h1 := (mem_rule_df.mp hr).1
  rcases mem_rule_rows.mp h1 with ⟨a, hma, cc, hmc, hsub, _hne, rfl⟩
  rcases mem_item_support_map.mp hma with ⟨ra, hra, rfl⟩
  rcases mem_item_support_map.mp hmc with ⟨rc, hrc, rfl⟩
  have ha2 : ra.itemsets = PyVal.tup la := ha
  have hc2 : rc.itemsets = PyVal.tup lc := hc
  show (ra.support / rc.support) * 100 ≤ 100
  obtain ⟨hia, -, hsa, hsta⟩ := tup_mem_all_frequent_items hra ha2
  obtain ⟨hic, -, hsc, hstc⟩ := tup_mem_all_frequent_items hrc hc2
  have hsub2 : lc.all (fun x => decide (x ∈ la)) = true := by
    have : pySubset rc.itemsets ra.itemsets = true := hsub
    rw [ha2, hc2] at this
    exact this
  have hsubset : ∀ x ∈ lc, x ∈ la := by
    intro x hx
    have := List.all_eq_true.mp hsub2 x hx
    exact of_decide_eq_true this
  have hcnt : itemset_count t la ≤ itemset_count t lc := by
    apply List.countP_mono_left
    intro tr _ htr
    rw [List.all_eq_true] at htr ⊢
    intro x hx
    exact htr x (hsubset x hx)
  have h0a : 0 < ra.support := lt_of_lt_of_le hs hsta
  have h0c : 0 < rc.support := lt_of_lt_of_le hs hstc
  rcases Nat.eq_zero_or_pos (num_transactions t) with hN | hN
  · exfalso
    rw [hsa, hN] at h0a
    norm_num at h0a
  · have hN0 : (0 : ℚ) < (num_transactions t : ℚ) := by exact_mod_cast hN
    have hle : ra.support ≤ rc.support := by
      rw [hsa, hsc]
      have hc3 : ((itemset_count t la : ℚ)) ≤ ((itemset_count t lc : ℚ)) := by
        exact_mod_cast hcnt
      gcongr
    calc (ra.support / rc.support) * 100
        ≤ 1 * 100 :=
          mul_le_mul_of_nonneg_right ((div_le_one h0c).mpr hle) (by norm_num)
      _ = 100 := by norm_num

/-- Witness for C10's amended statement: a tuple-to-tuple rule
({A,B,C} → {A,B}) at min_support 50 has confidence at most 100. -/
theorem C10_amended_witness :
    (⟨PyVal.tup ["A", "B", "C"], PyVal.tup ["A", "B"], 100, 100⟩ :
      RuleRecord).confidence ≤ 100 :=
  C10_amended_tuple_rules_bounded
    [["A", "B", "C"], ["A", "B", "C"], ["A", "B", "C"]] 50 50 (by norm_num)
    ⟨PyVal.tup ["A", "B", "C"], PyVal.tup ["A", "B"], 100, 100⟩ (by decide!)
    ["A", "B", "C"] ["A", "B"] rfl rfl

/-- C5: for a duplicate-free item list of length k, `generate_itemsets`
returns exactly 2 ^ k - 1 subsets; as sets of items they are pairwise
distinct, and the sets obtained are exactly the non-empty subsets of the
input (the empty subset never occurs). -/
theorem C5_generate_itemsets_powerset (items : List String) (h : items.Nodup) :
    (generate_itemsets items).length = 2 ^ items.length - 1 ∧
    ((generate_itemsets items).map List.toFinset).Nodup ∧
    ∀ S : Finset String,
      S ∈ (generate_itemsets items).map List.toFinset ↔
        S ⊆ items.toFinset ∧ S ≠ ∅ := by
  refine ⟨length_generate_itemsets items, ?_, ?_⟩
  · apply (nodup_generate_itemsets h).map_on
    intro x hx y hy hxy
    exact sublist_eq_of_toFinset_eq h (mem_generate_itemsets.mp hx).1
      (mem_generate_itemsets.mp hy).1 hxy
  · intro S
    constructor
    · intro hS
      rcases List.mem_map.mp hS with ⟨l, hl, rfl⟩
      obtain ⟨hsub, hne⟩ := mem_generate_itemsets.mp hl
      refine ⟨?_, ?_⟩
      · intro x hx
        exact List.mem_toFinset.mpr (hsub.subset (List.mem_toFinset.mp hx))
      · rcases l with _ | ⟨y, l⟩
        · exact absurd rfl hne
        · simp
    · rintro ⟨hsub, hne⟩
      refine List.mem_map.mpr ⟨items.filter (fun x => decide (x ∈ S)), ?_, ?_⟩
      · rw [mem_generate_itemsets]
        refine ⟨List.filter_sublist _, ?_⟩
        obtain ⟨x, hx⟩ := Finset.nonempty_iff_ne_empty.mpr hne
        have hxitems : x ∈ items := List.mem_toFinset.mp (hsub hx)
        intro hnil
        have hxmem : x ∈ items.filter (fun x => decide (x ∈ S)) :=
          List.mem_filter.mpr ⟨hxitems, decide_eq_true hx⟩
        rw [hnil] at hxmem
        cases hxmem
      · ext a
        simp only [List.mem_toFinset, List.mem_filter, decide_eq_true_eq]
        constructor
        · rintro ⟨-, ha⟩
          exact ha
        · intro ha
          exact ⟨List.mem_toFinset.mp (hsub ha), ha⟩

/-- Witness for C5 on the two distinct items A, B: three subsets. -/
theorem C5_witness :
    (generate_itemsets ["A", "B"]).length = 2 ^ (["A", "B"] : List String).length - 1 :=
  (C5_generate_itemsets_powerset ["A", "B"] (by decide)).1

/-- Helper for C9 and C6: the token sets of the entries of the combined
frequent-itemset table are pairwise distinct. -/
theorem table_tokenSet_pairwise (t : List (List String)) (s : ℚ) :
    (all_frequent_items t s).Pairwise
      (fun r1 r2 => tokenSet r1.itemsets ≠ tokenSet r2.itemsets) := by
  have htok : ((freq_pairs t s).map Prod.fst).Nodup := nodup_freq_tokens t s
  unfold all_frequent_items
  rw [List.pairwise_append]
  refine ⟨?_, ?_, ?_⟩
  · unfold freq_items
    rw [List.pairwise_map]
    have hpair : (freq_pairs t s).Pairwise (fun p q => p.1 ≠ q.1) :=
      List.pairwise_map.mp htok
    apply hpair.imp
    intro p q hne heq
    apply hne
    have heq2 : ({p.1} : Finset String) = {q.1} := heq
    exact Finset.singleton_injective heq2
  · apply List.Pairwise.sublist (List.filter_sublist _)
    unfold itemset_df
    rw [List.pairwise_map]
    unfold valid_itemsets
    apply List.Pairwise.sublist (List.filter_sublist _)
    have hnd : (generate_itemsets ((freq_pairs t s).map Prod.fst)).Nodup :=
      nodup_generate_itemsets htok
    apply List.Pairwise.imp_of_mem ?_ hnd
    intro i j hi hj hne heq
    apply hne
    have heq2 : i.toFinset = j.toFinset := heq
    exact sublist_eq_of_toFinset_eq htok (mem_generate_itemsets.mp hi).1
      (mem_generate_itemsets.mp hj).1 heq2
  · intro r1 h1 r2 h2
    rcases List.mem_map.mp h1 with ⟨p, hp, rfl⟩
    rcases List.mem_filter.mp h2 with ⟨h2a, -⟩
    rcases List.mem_map.mp h2a with ⟨i, hi, rfl⟩
    intro heq
    have heq2 : ({p.1} : Finset String) = i.toFinset := heq
    have hivalid := mem_valid_itemsets.mp hi
    have hinodup : i.Nodup := htok.sublist hivalid.1
    have hcard := congrArg Finset.card heq2
    rw [List.toFinset_card_of_nodup hinodup, Finset.card_singleton] at hcard
    have := hivalid.2.2
    omega

/-- C9: no itemset appears twice in the combined frequent-itemset table
returned by `brute_force_association`, itemset equality being equality of
the sets of item tokens (independent of element order and of the
string-versus-tuple representation of the table key). -/
theorem C9_no_duplicate_itemsets (t : List (List String)) (s c : ℚ) :
    ((brute_force_association t s c).2).Pairwise
      (fun r1 r2 => tokenSet r1.itemsets ≠ tokenSet r2.itemsets) :=
  table_tokenSet_pairwise t s

/-- Helper for C6: a larger minimum support filters the single-item pairs
more strictly, giving a sublist. -/
theorem freq_pairs_antitone {t : List (List String)} {s1 s2 : ℚ} (h : s1 ≤ s2) :
    freq_pairs t s2 <+ freq_pairs t s1 := by
  apply List.monotone_filter_right
  intro p hp
  simp only [decide_eq_true_eq] at hp ⊢
  have hdiv : s1 / 100 ≤ s2 / 100 := by gcongr
  have hmul : (s1 / 100) * (num_transactions t : ℚ) ≤
      (s2 / 100) * (num_transactions t : ℚ) :=
    mul_le_mul_of_nonneg_right hdiv (Nat.cast_nonneg _)
  linarith

/-- Helper for C6: every record of the table at the larger threshold is a
record of the table at the smaller threshold. -/
theorem mem_table_anti {t : List (List String)} {s1 s2 : ℚ} (h : s1 ≤ s2)
    {r : FreqRecord} (hr : r ∈ all_frequent_items t s2) :
    r ∈ all_frequent_items t s1 := by
  rcases mem_all_frequent_items.mp hr with ⟨p, hp, rfl⟩ | ⟨i, hi, hsup, rfl⟩
  · exact mem_all_frequent_items.mpr
      (Or.inl ⟨p, (freq_pairs_antitone h).subset hp, rfl⟩)
  · refine mem_all_frequent_items.mpr (Or.inr ⟨i, ?_, le_trans h hsup, rfl⟩)
    rw [mem_valid_itemsets] at hi ⊢
    exact ⟨hi.1.trans ((freq_pairs_antitone h).map Prod.fst), hi.2⟩

/-- C6: for a fixed input and fixed minimum confidence, raising the minimum
support from s1 to s2 ≥ s1 only shrinks the frequent-itemset table: every
record returned at s2 is returned at s1, and the number of records does
not increase. -/
theorem C6_support_monotonicity (t : List (List String)) (s1 s2 c : ℚ)
    (h : s1 ≤ s2) :
    (∀ r ∈ (brute_force_association t s2 c).2, r ∈ (brute_force_association t s1 c).2) ∧
    ((brute_force_association t s2 c).2).length ≤
      ((brute_force_association t s1 c).2).length := by
  constructor
  · intro r hr
    exact mem_table_anti h hr
  · have hnd : (all_frequent_items t s2).Nodup :=
      (table_tokenSet_pairwise t s2).imp
        (fun hne heq => hne (congrArg (fun r => tokenSet r.itemsets) heq))
    have hsubset : all_frequent_items t s2 ⊆ all_frequent_items t s1 :=
      fun r hr => mem_table_anti h hr
    exact (List.Nodup.subperm hnd hsubset).length_le

/-- Witness for C6 on the spec-example input with thresholds 25 and 50. -/
theorem C6_witness :
    ((brute_force_association [["A", "B"], ["A", "B", "C"], ["A"], ["B", "C"]] 50 50).2).length ≤
      ((brute_force_association [["A", "B"], ["A", "B", "C"], ["A"], ["B", "C"]] 25 50).2).length :=
  (C6_support_monotonicity [["A", "B"], ["A", "B", "C"], ["A"], ["B", "C"]] 25 50 50
    (by norm_num)).2

/-- C4: on the spec's example input with both thresholds 50, the
frequent-itemset table contains A with support 75, B with support 75, C
with support 50 and {A,B} with support 50, and the rule table contains a
rule with antecedent {A,B}, consequent {A} and confidence 100 × 50 / 75. -/
theorem C4_spec_example :
    (∃ r ∈ (brute_force_association [["A", "B"], ["A", "B", "C"], ["A"], ["B", "C"]] 50 50).2,
        tokenSet r.itemsets = {"A"} ∧ r.support = 75) ∧
    (∃ r ∈ (brute_force_association [["A", "B"], ["A", "B", "C"], ["A"], ["B", "C"]] 50 50).2,
        tokenSet r.itemsets = {"B"} ∧ r.support = 75) ∧
    (∃ r ∈ (brute_force_association [["A", "B"], ["A", "B", "C"], ["A"], ["B", "C"]] 50 50).2,
        tokenSet r.itemsets = {"C"} ∧ r.support = 50) ∧
    (∃ r ∈ (brute_force_association [["A", "B"], ["A", "B", "C"], ["A"], ["B", "C"]] 50 50).2,
        tokenSet r.itemsets = {"A", "B"} ∧ r.support = 50) ∧
    (∃ r ∈ (brute_force_association [["A", "B"], ["A", "B", "C"], ["A"], ["B", "C"]] 50 50).1,
        tokenSet r.antecedent = {"A", "B"} ∧ tokenSet r.consequent = {"A"} ∧
        r.confidence = 100 * 50 / 75) := by
  decide!
